/-
Verification of the flag-parsing engine of arp242/zli (Go).

The definitions below are a shallow embedding of the Go source:
  * flag.go / the `Flags` type: `NewFlags`, `Shift`, `ShiftCommand`,
    `Parse`, `match` (here `matchList`), `acceptsValue`, the typed flag
    constructors (`Bool`, `String`, `Int`, `Int64`, `IntCounter`,
    `StringList`, `IntList`) and `Optional`;
  * the environment fallback: `fromEnv`, `setFromEnv`, `parseEnvBool`.

Go strings are modelled as Lean `String`s, with the byte/rune-level
operations written out over `String.data` (all inputs of interest are
ASCII; Go's Unicode-aware ToLower/ToUpper are modelled on ASCII).
Go's pointer-aliased flag cells are modelled by a list of `flagValue` records
mutated by index: `match` returns the index of the first matching
registration, exactly as the Go `match` returns the first matching
`flagValue`.  Go errors are modelled by the inductive `PErr`.
`strconv.ParseInt(s, 0, 64)` is modelled by `goParseInt` (base-0 prefix
rules, `_` separators, 64-bit range check; all error kinds collapse to
`none`).  The `flagFloat64` and `flagInt32` kinds are not modelled
(floating point, and `Parse` has no binding case for `flagInt32`);
no claim mentions them.
-/
import Mathlib

set_option maxRecDepth 4000

/-! ## ASCII character and string helpers (Go `strings` package semantics) -/

/-- ASCII lower-casing of one character (Go `strings.ToLower` on ASCII). -/
def lowerCh (c : Char) : Char :=
  if 'A' ≤ c ∧ c ≤ 'Z' then Char.ofNat (c.toNat + 32) else c

/-- ASCII upper-casing of one character (Go `strings.ToUpper` on ASCII). -/
def upperCh (c : Char) : Char :=
  if 'a' ≤ c ∧ c ≤ 'z' then Char.ofNat (c.toNat - 32) else c

def goToLower (s : List Char) : List Char := s.map lowerCh

def goToUpper (s : List Char) : List Char := s.map upperCh

/-- Go `strings.HasPrefix s p` is `hasPfx p.data s.data`. -/
def hasPfx : List Char → List Char → Bool
  | [], _ => true
  | _ :: _, [] => false
  | p :: ps, c :: cs => p == c && hasPfx ps cs

/-- Go `strings.ReplaceAll s (string a) (string b)` for one-character
patterns. -/
def mapReplace (a b : Char) (s : List Char) : List Char :=
  s.map (fun c => if c = a then b else c)

/-- Go `strings.TrimLeft s "-"`. -/
def dropDashes (s : List Char) : List Char := s.dropWhile (fun c => c = '-')

/-- Go `strings.TrimRight s "_"`. -/
def trimRightUnd (s : List Char) : List Char :=
  (s.reverse.dropWhile (fun c => c = '_')).reverse

/-- The remainder of `s` after the first occurrence of `ch`
(`s[j+1:]` for `j := strings.IndexByte(s, ch)`), or `none` when absent. -/
def afterChar (ch : Char) : List Char → Option (List Char)
  | [] => none
  | c :: cs => if c = ch then some cs else afterChar ch cs

/-- Go `strings.Split s (string sep)` for a one-character separator;
`Split "" sep = [""]`. -/
def splitCh (sep : Char) : List Char → List (List Char)
  | [] => [[]]
  | c :: cs =>
    if c = sep then [] :: splitCh sep cs
    else
      match splitCh sep cs with
      | [] => [[c]]
      | g :: gs => (c :: g) :: gs

/-! ## `strconv.ParseInt(s, 0, 64)` (Go standard library) -/

/-- Digit value of a character as in Go's `ParseUint` loop:
decimal digits, then letters (case-insensitive) as 10..35. -/
def digitVal (c : Char) : Option Nat :=
  if '0' ≤ c ∧ c ≤ '9' then some (c.toNat - '0'.toNat)
  else if 'a' ≤ lowerCh c ∧ lowerCh c ≤ 'z' then some ((lowerCh c).toNat - 'a'.toNat + 10)
  else none

/-- State loop of Go `strconv.underscoreOK`; `saw` is one of
`'^'` (begin), `'0'` (base prefix), `'d'` (digit), `'_'`, `'!'` (other). -/
def underscoreOKLoop (hex : Bool) : List Char → Char → Bool
  | [], saw => saw ≠ '_'
  | c :: cs, saw =>
    if ('0' ≤ c ∧ c ≤ '9') ∨ (hex ∧ 'a' ≤ lowerCh c ∧ lowerCh c ≤ 'f') then
      underscoreOKLoop hex cs 'd'
    else if c = '_' then
      if saw ≠ 'd' ∧ saw ≠ '0' then false else underscoreOKLoop hex cs '_'
    else if saw = '_' then false
    else underscoreOKLoop hex cs '!'

/-- Go `strconv.underscoreOK`: underscores may only separate digits, or
the base prefix and the first digit. -/
def underscoreOK (s : List Char) : Bool :=
  let s1 := match s with
            | c :: cs => if c = '-' ∨ c = '+' then cs else s
            | [] => s
  match s1 with
  | c0 :: c1 :: rest =>
    if c0 = '0' ∧ (lowerCh c1 = 'b' ∨ lowerCh c1 = 'o' ∨ lowerCh c1 = 'x') then
      underscoreOKLoop (lowerCh c1 = 'x') rest '0'
    else underscoreOKLoop false (c0 :: c1 :: rest) '^'
  | _ => underscoreOKLoop false s1 '^'

/-- Digit-accumulation loop of Go `strconv.ParseUint` (base-0 mode):
skips `_`, rejects invalid or out-of-base digits, and rejects values
exceeding `maxVal` (Go's cutoff/overflow checks).  Returns the value and
whether an underscore was seen. -/
def parseUintLoop (base : Nat) (maxVal : Nat) : List Char → Nat → Bool → Option (Nat × Bool)
  | [], n, und => some (n, und)
  | c :: cs, n, und =>
    if c = '_' then parseUintLoop base maxVal cs n true
    else
      match digitVal c with
      | none => none
      | some d =>
        if base ≤ d then none
        else
          let n1 := n * base + d
          if maxVal < n1 then none
          else parseUintLoop base maxVal cs n1 und

/-- Go `strconv.ParseUint(s, 0, 64)`: base detection from the `0b`/`0o`/
`0x`/leading-`0` prefix, digit loop, `underscoreOK` validation.  All
error kinds (syntax and range) collapse to `none`. -/
def goParseUint64 (s : List Char) : Option Nat :=
  match s with
  | [] => none
  | _ =>
    let bd : Nat × List Char :=
      match s with
      | '0' :: c1 :: c2 :: rest =>
        if lowerCh c1 = 'b' then (2, c2 :: rest)
        else if lowerCh c1 = 'o' then (8, c2 :: rest)
        else if lowerCh c1 = 'x' then (16, c2 :: rest)
        else (8, c1 :: c2 :: rest)
      | '0' :: rest => (8, rest)
      | _ => (10, s)
    match parseUintLoop bd.1 (2 ^ 64 - 1) bd.2 0 false with
    | none => none
    | some (n, und) => if und ∧ ¬underscoreOK s then none else some n

/-- Go `strconv.ParseInt(s, 0, 64)`: optional sign, then `ParseUint`,
then the signed 64-bit range check.  Errors collapse to `none`. -/
def goParseInt (s : List Char) : Option Int :=
  match s with
  | [] => none
  | c :: rest =>
    let neg : Bool := c = '-'
    let s1 := if c = '+' ∨ c = '-' then rest else s
    match goParseUint64 s1 with
    | none => none
    | some un =>
      if ¬neg ∧ 2 ^ 63 ≤ un then none
      else if neg ∧ 2 ^ 63 < un then none
      else some (if neg then -(un : Int) else (un : Int))

/-! ## Data model: flag values, cells, and the `Flags` aggregate -/

/-- The tagged variant behind `flagValue.value`: one constructor per Go
flag kind modelled here, carrying the current typed value (`*v.v`). -/
inductive GoVal
  | vBool (b : Bool)
  | vStr (s : String)
  | vInt (n : Int)
  | vInt64 (n : Int)
  | vCounter (n : Int)
  | vStrList (l : List String)
  | vIntList (l : List Int)
deriving DecidableEq, Repr

/-- One registered flag: its normalized names (canonical first), the
`o` (optional-value) field, and the three cells `*v.v`, `*v.s` (Set),
`*v.e` (setFromEnv) shared between the definition and the caller's
handle.  Go's pointer aliasing is modelled by updating this record in
the registration list by index. -/
structure flagValue where
  names : List String
  opt : Bool
  val : GoVal
  set : Bool
  env : Bool
deriving DecidableEq, Repr

def dfltFlag : flagValue := ⟨[], false, .vBool false, false, false⟩

/-- The `Flags` aggregate: program name, argument list, registered
flags (in registration order), and the transient `optional` modifier. -/
structure Flags where
  program : String
  args : List String
  flags : List flagValue
  optional : Bool
deriving DecidableEq, Repr

/-- Errors returned by `Parse` / `fromEnv` (§ flag.go error types).
`needsArg a` models `fmt.Errorf("%s: %s", a, "needs an argument")`;
`invalid a kind` models `ErrFlagInvalid{a, err, kind}`;
`invalidEnv key` models the wrapped per-variable `fromEnv` error. -/
inductive PErr
  | unknownFlag (flag : String)
  | double (flag : String)
  | invalid (flag : String) (kind : String)
  | needsArg (flag : String)
  | positional (lo hi n : Int)
  | unknownEnv (pfx : String) (vars : List String)
  | invalidEnv (key : String)
deriving DecidableEq, Repr

/-! ## Name normalization, lookup, registration -/

/-- `strings.ToLower(strings.ReplaceAll(strings.TrimLeft(n, "-"), "_", "-"))`,
the normalization applied both at registration (`Flags.append`) and at
lookup (`Flags.match`). -/
def normName (s : String) : String :=
  ⟨goToLower (mapReplace '_' '-' (dropDashes s.data))⟩

/-- Index of the first list element satisfying `p` (the Go
`for _, flag := range f.flags` search order). -/
def findIdxO (p : flagValue → Bool) : List flagValue → Option Nat
  | [] => none
  | fg :: rest => if p fg then some 0 else (findIdxO p rest).map (· + 1)

/-- `Flags.match`: normalize `arg`, then return the first registered
flag one of whose names equals it or is a `name=` prefix of it.  The
match is returned as an index into the registration list. -/
def matchList (fl : List flagValue) (arg : String) : Option Nat :=
  let a := normName arg
  findIdxO (fun fg => fg.names.any (fun n => n == a || hasPfx (n.data ++ ['=']) a.data)) fl

/-- `acceptsValue`: every kind except `flagBool` and `flagIntCounter`
takes a value (the `nil` case of the Go switch corresponds to a failed
match and cannot reach this function here). -/
def acceptsValue : GoVal → Bool
  | .vBool _ => false
  | .vCounter _ => false
  | _ => true

/-- `Flags.append`: normalize the canonical name and the aliases and
append a fresh registration. -/
def Flags.appendFlag (f : Flags) (v : GoVal) (o : Bool) (n : String) (a : List String) : Flags :=
  { f with flags := f.flags ++ [⟨normName n :: a.map normName, o, v, false, false⟩] }

/-- Shared body of the typed constructors: capture `f.optional` into the
new flag's `o` field and clear it. -/
def Flags.addFlag (f : Flags) (v : GoVal) (n : String) (a : List String) : Flags :=
  Flags.appendFlag { f with optional := false } v f.optional n a

def Flags.boolFlag (f : Flags) (dflt : Bool) (n : String) (a : List String) : Flags :=
  Flags.addFlag f (.vBool dflt) n a

def Flags.strFlag (f : Flags) (dflt : String) (n : String) (a : List String) : Flags :=
  Flags.addFlag f (.vStr dflt) n a

def Flags.intFlag (f : Flags) (dflt : Int) (n : String) (a : List String) : Flags :=
  Flags.addFlag f (.vInt dflt) n a

def Flags.int64Flag (f : Flags) (dflt : Int) (n : String) (a : List String) : Flags :=
  Flags.addFlag f (.vInt64 dflt) n a

def Flags.intCounter (f : Flags) (dflt : Int) (n : String) (a : List String) : Flags :=
  Flags.addFlag f (.vCounter dflt) n a

def Flags.stringList (f : Flags) (dflt : List String) (n : String) (a : List String) : Flags :=
  Flags.addFlag f (.vStrList dflt) n a

def Flags.intList (f : Flags) (dflt : List Int) (n : String) (a : List String) : Flags :=
  Flags.addFlag f (.vIntList dflt) n a

/-- `Flags.Optional`: mark the next registration as optional-value. -/
def Flags.Optional (f : Flags) : Flags := { f with optional := true }

/-- The flag record at registration index `i` (reading the cells the
Go handle would read through its pointers). -/
def Flags.flagAt (f : Flags) (i : Nat) : flagValue := f.flags.getD i dfltFlag

/-- `filepath.Base` for Unix separators (used by `NewFlags` on
`args[0]`). -/
def goBase (s : String) : String :=
  match s.data with
  | [] => "."
  | _ =>
    let t := (s.data.reverse.dropWhile (fun c => c = '/')).reverse
    let u := (t.reverse.takeWhile (fun c => c ≠ '/')).reverse
    if u.isEmpty then "/" else ⟨u⟩

/-- `NewFlags`: program name from `args[0]`, argument list from
`args[1:]`. -/
def NewFlags (args : List String) : Flags :=
  { program := match args with
               | [] => ""
               | a :: _ => goBase a
    args := args.drop 1
    flags := []
    optional := false }

/-! ## Environment fallback (`fromEnv` / `setFromEnv` / `parseEnvBool`) -/

/-- `parseEnvBool`: `(value, ok)`; `"1"/"true"/"t"/""` are true,
`"0"/"false"/"f"` false, anything else `ok = false`. -/
def parseEnvBool (v : String) : Bool × Bool :=
  let lv : String := ⟨goToLower v.data⟩
  if lv = "1" ∨ lv = "true" ∨ lv = "t" ∨ lv = "" then (true, true)
  else if lv = "0" ∨ lv = "false" ∨ lv = "f" then (false, true)
  else (false, false)

/-- Helper for the `flagIntList` case of `setFromEnv`: parse the
comma-separated segments, keeping the partial list on failure (the Go
code mutates `*v.v` as it goes and returns mid-loop). -/
def parseIntsAcc : List (List Char) → List Int → List Int × Bool
  | [], acc => (acc, false)
  | p :: ps, acc =>
    match goParseInt p with
    | none => (acc, true)
    | some x => parseIntsAcc ps (acc ++ [x])

/-- `setFromEnv(flag, k, val)`: coerce the environment string into the
flag's kind and mark `*v.s = *v.e = true`.  The second component is
whether an error was returned (the error's payload is not needed by any
claim).  Mirrors the mutation order of the source: the Bool case sets
the cells before failing; the Int cases fail without mutating; the
IntList case sets the cells first and keeps a partial list on failure. -/
def setFromEnvF (fg : flagValue) (v : String) : flagValue × Bool :=
  match fg.val with
  | .vBool _ =>
    let xo := parseEnvBool v
    ({ fg with set := true, env := true, val := .vBool xo.1 }, !xo.2)
  | .vStr _ => ({ fg with set := true, env := true, val := .vStr v }, false)
  | .vInt _ =>
    match goParseInt v.data with
    | none => (fg, true)
    | some x => ({ fg with set := true, env := true, val := .vInt x }, false)
  | .vInt64 _ =>
    match goParseInt v.data with
    | none => (fg, true)
    | some x => ({ fg with set := true, env := true, val := .vInt64 x }, false)
  | .vCounter _ =>
    match parseEnvBool v with
    | (b, true) => ({ fg with set := true, env := true, val := .vCounter (if b then 1 else 0) }, false)
    | (_, false) =>
      match goParseInt v.data with
      | none => (fg, true)
      | some n => ({ fg with set := true, env := true, val := .vCounter n }, false)
  | .vStrList _ =>
    let nv : GoVal := .vStrList ((splitCh ',' v.data).map (fun l => ⟨l⟩))
    ({ fg with set := true, env := true, val := nv }, false)
  | .vIntList _ =>
    let le := parseIntsAcc (splitCh ',' v.data) []
    ({ fg with set := true, env := true, val := .vIntList le.1 }, le.2)

/-- Normalization of an environment key:
`strings.ReplaceAll(strings.ToUpper(k), "-", "_")`. -/
def envKeyNorm (k : String) : String := ⟨mapReplace '-' '_' (goToUpper k.data)⟩

/-- The `for _, e := range os.Environ()` loop of `fromEnv`, over an
explicit association list (the environment collaborator).  `unknown`
accumulates prefixed keys with no matching flag. -/
def fromEnvLoop (pfxN : String) (fl : List flagValue) :
    List (String × String) → List String → List flagValue × Option PErr
  | [], unknown =>
    (fl, if unknown.isEmpty then none else some (.unknownEnv pfxN unknown))
  | (k, v) :: rest, unknown =>
    let kN := envKeyNorm k
    if ¬hasPfx pfxN.data kN.data then fromEnvLoop pfxN fl rest unknown
    else
      let k2 : String := ⟨kN.data.drop pfxN.data.length⟩
      if k2.data.length < 2 then fromEnvLoop pfxN fl rest unknown
      else
        match matchList fl k2 with
        | none => fromEnvLoop pfxN fl rest (unknown ++ [kN])
        | some idx =>
          let fe := setFromEnvF (fl.getD idx dfltFlag) v
          let fl' := fl.set idx fe.1
          if fe.2 then (fl', some (.invalidEnv kN)) else fromEnvLoop pfxN fl' rest unknown

/-- `Flags.fromEnv(prefix)`: normalize the prefix
(`strings.ToUpper(strings.TrimRight(prefix, "_")) + "_"` when nonempty)
and run the environment loop. -/
def fromEnvF (fl : List flagValue) (pfx : String) (env : List (String × String)) :
    List flagValue × Option PErr :=
  let pfxN : String := if pfx = "" then pfx else ⟨goToUpper (trimRightUnd pfx.data) ++ ['_']⟩
  fromEnvLoop pfxN fl env []

/-! ## Tokenizer: grouped short-flag expansion (`Parse`, first loop) -/

/-- Letter-by-letter scan of a candidate group: `none` when some letter
matches no flag (`found = false`); `some none` when every letter is a
no-value flag (`shortarg = -1`); `some (some k)` when the letter before
position `k` is the first value-accepting flag (`shortarg = i+1`). -/
def findShortArg (fl : List flagValue) : List Char → Option (Option Nat)
  | [] => some none
  | c :: cs =>
    match matchList fl (String.mk [c]) with
    | none => none
    | some idx =>
      if acceptsValue ((fl.getD idx dfltFlag).val) then some (some 1)
      else
        match findShortArg fl cs with
        | none => none
        | some none => some none
        | some (some k) => some (some (k + 1))

/-- Reassembly of a matched group: letters before `shortarg` become
`-c` tokens, the letters from `shortarg` on become one bare value token
(none when `shortarg` points past the end). -/
def rebuildShort (split : List Char) : Option Nat → List String
  | none => split.map (fun c => String.mk ['-', c])
  | some sa =>
    (split.take sa).map (fun c => String.mk ['-', c]) ++
      (if sa < split.length then [String.mk (split.drop sa)] else [])

/-- Rewrite of one token of the first `Parse` loop: non-flags, exact
(or `name=value`) matches, and `--`-prefixed tokens pass through;
otherwise the token is split letter-by-letter. -/
def expandOne (fl : List flagValue) (arg : String) : List String :=
  if ¬hasPfx ['-'] arg.data ∨ arg = "-" then [arg]
  else if (matchList fl arg).isSome then [arg]
  else if hasPfx ['-', '-'] arg.data then [arg]
  else
    let split := arg.data.drop 1
    match findShortArg fl split with
    | none => [arg]
    | some sa => rebuildShort split sa

/-- The whole first loop of `Parse`: each token rewritten
independently. -/
def expandArgs (fl : List flagValue) : List String → List String
  | [] => []
  | a :: rest => expandOne fl a ++ expandArgs fl rest

/-! ## Main consumption pass (`Parse`, second loop) -/

/-- Whether a token "looks like a flag": `len(v) > 1 && v[0] == '-'`. -/
def flagLike (v : String) : Bool :=
  match v.data with
  | c :: _ :: _ => c == '-'
  | _ => false

/-- `a[0] == '-'` for a possibly empty token. -/
def headDash (a : String) : Bool :=
  match a.data with
  | c :: _ => c == '-'
  | [] => false

/-- Result of the `next` closure: the value, the new `Set` cell, whether
a value is present, whether "needs an argument" was raised, and whether
the following token was consumed. -/
structure NextRes where
  val : String
  setF : Bool
  hasVal : Bool
  err : Bool
  skip : Bool
deriving DecidableEq, Repr

/-- The `next(opt)` closure of `Parse`: an explicit `name=value` suffix
on the current token wins; at the end of the arguments a required value
raises the error; a following flag-like token means the value is absent
(with no error); otherwise the following token is consumed. -/
def nextVal (a : String) (rest : List String) (o : Bool) : NextRes :=
  match afterChar '=' a.data with
  | some v => ⟨⟨v⟩, true, true, false, false⟩
  | none =>
    match rest with
    | [] => if o then ⟨"", true, false, false, false⟩ else ⟨"", false, false, true, false⟩
    | v :: _ =>
      if flagLike v then ⟨"", true, false, false, false⟩
      else ⟨v, true, true, false, true⟩

/-- The scalar kinds for which a repeat is `ErrFlagDouble` (everything
not in the `flagIntCounter, flagStringList, flagIntList, flagBool`
exemption list of the source). -/
def doubleErrKind : GoVal → Bool
  | .vStr _ => true
  | .vInt _ => true
  | .vInt64 _ => true
  | _ => false

/-- The per-kind binding switch of `Parse`, acting on the matched flag:
returns the updated flag, whether the next token was consumed, and an
error.  Mirrors the cell-mutation order of the source (e.g. `*v.s` and
`*v.e` are updated even on the paths that then return an error). -/
def bindFlag (a : String) (rest : List String) (fg : flagValue) :
    flagValue × Bool × Option PErr :=
  match fg.val with
  | .vBool _ => ({ fg with val := .vBool true, set := true, env := false }, false, none)
  | .vStr s =>
    let r := nextVal a rest fg.opt
    let nv : GoVal := if r.hasVal then .vStr r.val else .vStr s
    ({ fg with set := r.setF, env := false, val := nv }, r.skip,
      if r.err then some (.needsArg a) else none)
  | .vInt _ =>
    let r := nextVal a rest fg.opt
    let fg' : flagValue := { fg with set := r.setF, env := false }
    if r.hasVal then
      match goParseInt r.val.data with
      | none => (fg', r.skip, some (.invalid a "number"))
      | some x => ({ fg' with val := .vInt x }, r.skip, none)
    else (fg', r.skip, if r.err then some (.needsArg a) else none)
  | .vInt64 _ =>
    let r := nextVal a rest fg.opt
    let fg' : flagValue := { fg with set := r.setF, env := false }
    if r.hasVal then
      match goParseInt r.val.data with
      | none => (fg', r.skip, some (.invalid a "number"))
      | some x => ({ fg' with val := .vInt64 x }, r.skip, none)
    else (fg', r.skip, if r.err then some (.needsArg a) else none)
  | .vCounter n =>
    let n0 : Int := if fg.env then 0 else n
    ({ fg with val := .vCounter (n0 + 1), set := true, env := false }, false, none)
  | .vStrList l =>
    let l0 : List String := if ¬fg.set ∨ fg.env then [] else l
    let r := nextVal a rest fg.opt
    if r.hasVal then
      ({ fg with env := false, set := r.setF, val := .vStrList (l0 ++ [r.val]) }, r.skip, none)
    else
      ({ fg with env := false, val := .vStrList l0 }, r.skip,
        if r.err then some (.needsArg a) else none)
  | .vIntList l =>
    let l0 : List Int := if ¬fg.set ∨ fg.env then [] else l
    let r := nextVal a rest fg.opt
    if r.hasVal then
      match goParseInt r.val.data with
      | none => ({ fg with val := .vIntList l0 }, r.skip, some (.invalid a "number"))
      | some x =>
        ({ fg with set := r.setF, env := false, val := .vIntList (l0 ++ [x]) }, r.skip, none)
    else
      ({ fg with val := .vIntList l0 }, r.skip,
        if r.err then some (.needsArg a) else none)

/-- Outcome of the consumption loop: the (possibly mutated) flag list
with either the positional accumulator or the error that aborted the
scan. -/
inductive LoopRes
  | ok (fl : List flagValue) (p : List String)
  | fail (fl : List flagValue) (e : PErr)
deriving DecidableEq, Repr

/-- The second loop of `Parse`: left-to-right scan with the "skip next"
behaviour realized by recursing on the tail of the tail when the bound
flag consumed its value token. -/
def runArgs (aU aM : Bool) : List flagValue → List String → List String → LoopRes
  | fl, [], p => .ok fl p
  | fl, a :: rest, p =>
    if a = "" ∨ a = "-" ∨ ¬headDash a then runArgs aU aM fl rest (p ++ [a])
    else if a = "--" then .ok fl (p ++ rest)
    else
      match matchList fl a with
      | none => if aU then runArgs aU aM fl rest (p ++ [a]) else .fail fl (.unknownFlag a)
      | some idx =>
        let fg := fl.getD idx dfltFlag
        if ¬aM ∧ fg.set ∧ ¬fg.env ∧ doubleErrKind fg.val then .fail fl (.double a)
        else
          let bfr := bindFlag a rest fg
          let fl' := fl.set idx bfr.1
          match bfr.2.2 with
          | some e => .fail fl' e
          | none =>
            if bfr.2.1 then
              match rest with
              | [] => runArgs aU aM fl' [] p
              | _ :: rest' => runArgs aU aM fl' rest' p
            else runArgs aU aM fl' rest p

/-! ## `Parse` -/

/-- The `parseOpts` record (`AllowUnknown`, `AllowMultiple`, `FromEnv`,
`Positional`). -/
structure ParseOpts where
  allowUnknown : Bool
  allowMultiple : Bool
  fromEnv : Bool
  envPfx : String
  pos : Int × Int
deriving DecidableEq, Repr

/-- Parsing with no option functions applied (the zero `parseOpts`). -/
def defaultOpts : ParseOpts := ⟨false, false, false, "", (0, 0)⟩

/-- The two profile flags registered at the top of every `Parse` call:
`f.String("", "cpuprofile", "cpu-profile")` and
`f.String("", "memprofile", "mem-profile")`. -/
def regProf (f : Flags) : Flags :=
  Flags.strFlag (Flags.strFlag f "" "cpuprofile" ["cpu-profile"]) "" "memprofile" ["mem-profile"]

/-- `Parse` after the environment pre-pass: register the profile flags,
rewrite the argument list, run the consumption loop, then apply the
positional-count bounds.  On error `f.Args` keeps the rewritten token
list; on success it becomes the positional accumulator and the retained
soft environment error (if any) is returned. -/
def parseMain (f : Flags) (opt : ParseOpts) (retErr : Option PErr) : Flags × Option PErr :=
  let f1 := regProf f
  let ex := expandArgs f1.flags f1.args
  match runArgs opt.allowUnknown opt.allowMultiple f1.flags ex [] with
  | .fail fl e => ({ f1 with flags := fl, args := ex }, some e)
  | .ok fl p =>
    if (0 < opt.pos.1 ∧ (p.length : Int) < opt.pos.1)
        ∨ (0 < opt.pos.2 ∧ opt.pos.2 < (p.length : Int))
        ∨ (opt.pos.1 = -1 ∧ 0 < p.length) then
      ({ f1 with flags := fl, args := ex },
        some (.positional opt.pos.1 opt.pos.2 p.length))
    else ({ f1 with flags := fl, args := p }, retErr)

/-- `Flags.Parse`: optional environment pre-pass (an `ErrUnknownEnv` is
retained as a soft error and returned at the end; any other environment
error aborts immediately), then `parseMain`. -/
def Flags.Parse (f : Flags) (opt : ParseOpts) (env : List (String × String)) :
    Flags × Option PErr :=
  if opt.fromEnv then
    match fromEnvF f.flags opt.envPfx env with
    | (fl0, some (.unknownEnv px vs)) =>
      parseMain { f with flags := fl0 } opt (some (.unknownEnv px vs))
    | (fl0, some e) => ({ f with flags := fl0 }, some e)
    | (fl0, none) => parseMain { f with flags := fl0 } opt none
  else parseMain f opt none

/-! ## `Shift` and `ShiftCommand` -/

/-- `Flags.Shift`: remove and return the first argument ("" when
empty). -/
def Flags.Shift (f : Flags) : String × Flags :=
  match f.args with
  | [] => ("", f)
  | a :: rest => (a, { f with args := rest })

deriving instance DecidableEq for Except

/-- Sentinel errors of `ShiftCommand`. -/
inductive CmdErr
  | noneGiven
  | unknown (cmd : String)
  | ambiguous (cmd : String) (opts : List String)
deriving DecidableEq, Repr

/-- The candidate-extraction loop of `ShiftCommand`: shift tokens,
pushing back ones that look like flags (leading `-`) or contain `=`;
an empty shift means no command was given (the pushback is discarded,
as in the source).  Returns the candidate with the restored argument
list, or the residual arguments. -/
def shiftCmdLoop : List String → List String → (String × List String) ⊕ List String
  | [], _pb => .inr []
  | a :: rest, pb =>
    if a = "" then .inr rest
    else if headDash a ∨ (afterChar '=' a.data).isSome then shiftCmdLoop rest (pb ++ [a])
    else .inl (a, pb ++ rest)

/-- Alias resolution: `"alias=cmd"` stands for `cmd`. -/
def aliasTarget (c : String) : String :=
  match afterChar '=' c.data with
  | some t => ⟨t⟩
  | none => c

/-- The matching loop of `ShiftCommand` over the known commands: an
exact match returns immediately; otherwise every command with the
candidate as a string-prefix is collected (alias-resolved), and the
final accumulator decides between unknown / unique / ambiguous. -/
def resolveCmd (cmd : String) : List String → List String → Except CmdErr String
  | [], found =>
    match found with
    | [] => .error (.unknown cmd)
    | [c] => .ok c
    | cs => .error (.ambiguous cmd cs)
  | c :: rest, found =>
    if c = cmd then .ok cmd
    else if hasPfx cmd.data c.data then resolveCmd cmd rest (found ++ [aliasTarget c])
    else resolveCmd cmd rest found

/-- `Flags.ShiftCommand`: extract the first non-flag-like token
(lower-cased), restore the pushed-back tokens, and resolve it against
the known commands (when given). -/
def Flags.ShiftCommand (f : Flags) (cmds : List String) : Except CmdErr String × Flags :=
  match shiftCmdLoop f.args [] with
  | .inr res => (.error .noneGiven, { f with args := res })
  | .inl (cmd0, newArgs) =>
    let cmd : String := ⟨goToLower cmd0.data⟩
    let f' : Flags := { f with args := newArgs }
    if cmds.isEmpty then (.ok cmd, f')
    else (resolveCmd cmd cmds [], f')

/-! ## Claim scenarios -/

/-- A non-flag-like token: empty, a bare `-`, or not starting with
`-`.  Such tokens pass through both `Parse` loops as positionals. -/
def nonFlagTok (t : String) : Prop := t = "" ∨ t = "-" ∨ headDash t = false

instance (t : String) : Decidable (nonFlagTok t) := by
  unfold nonFlagTok; infer_instance

/-- The end-to-end example: `IntCounter("v")`, `Bool("a")`,
`String("f")` on argv `["example","-vv","-f=csv","-a","xx","yy"]`. -/
def c1Flags : Flags :=
  Flags.strFlag
    (Flags.boolFlag
      (Flags.intCounter (NewFlags ["example", "-vv", "-f=csv", "-a", "xx", "yy"]) 0 "v" [])
      false "a" [])
    "" "f" []

/-- Three single-letter boolean flags `a`, `b`, `c` (arbitrary
defaults) over the given arguments. -/
def c2Flags (da db dc : Bool) (args : List String) : Flags :=
  Flags.boolFlag
    (Flags.boolFlag (Flags.boolFlag (NewFlags ("prog" :: args)) da "a" []) db "b" [])
    dc "c" []

/-- A single int-valued flag `w` (arbitrary default) over the given
arguments. -/
def c3Flags (d : Int) (args : List String) : Flags :=
  Flags.intFlag (NewFlags ("prog" :: args)) d "w" []

/-- A scalar String flag `s`. -/
def c4Flags : Flags := Flags.strFlag (NewFlags ["prog", "-s=a", "-s=b"]) "" "s" []

/-- Parse options with only `AllowMultiple()` applied. -/
def allowMultipleOpts : ParseOpts := ⟨false, true, false, "", (0, 0)⟩

/-- A value-requiring String flag `s` (arbitrary default) and a Bool
flag `b`, over the given arguments. -/
def c5Flags (d : String) (args : List String) : Flags :=
  Flags.boolFlag (Flags.strFlag (NewFlags ("prog" :: args)) d "s" []) false "b" []

/-- A String flag named `flag`, argv `["-flag","cli"]`. -/
def c6Flags : Flags := Flags.strFlag (NewFlags ["prog", "-flag", "cli"]) "" "flag" []

/-- Parse options with `FromEnv("P")` applied. -/
def c6Opts : ParseOpts := ⟨false, false, true, "P", (0, 0)⟩

/-- An IntCounter flag `v` with argv `["--","-v"]`: the first parse
leaves the flag-like positional `"-v"` behind. -/
def c8Flags : Flags := Flags.intCounter (NewFlags ["prog", "--", "-v"]) 0 "v" []

/-- A Bool flag `b` with the single token `-b=` followed by an
arbitrary string. -/
def c9Flags (x : String) : Flags :=
  Flags.boolFlag (NewFlags ["prog", "-b=" ++ x]) false "b" []

/-- No caller-registered flags; the profile flags are exercised with an
arbitrary `=`-fused value, a space-separated value, and a positional. -/
def c10Flags (file : String) : Flags :=
  NewFlags ["prog", "-cpuprofile=" ++ file, "-memprofile", "f2", "pos"]

/-! ## Claim theorems -/

/-- C1: parsing `["example","-vv","-f=csv","-a","xx","yy"]` with
`IntCounter("v")`, `Bool("a")`, `String("f")` registered returns no
error; afterwards the counter is 2, the bool true, the string `"csv"`,
and the remaining `Args` are exactly `["xx","yy"]`. -/
theorem C1_end_to_end :
    (Flags.Parse c1Flags defaultOpts []).2 = none ∧
    ((Flags.Parse c1Flags defaultOpts []).1.flagAt 0).val = .vCounter 2 ∧
    ((Flags.Parse c1Flags defaultOpts []).1.flagAt 1).val = .vBool true ∧
    ((Flags.Parse c1Flags defaultOpts []).1.flagAt 2).val = .vStr "csv" ∧
    (Flags.Parse c1Flags defaultOpts []).1.args = ["xx", "yy"] := by
  decide

/-- C2: for boolean flags `a`, `b`, `c` (any defaults), parsing
`["-abc"]` produces the very same final state — every flag cell and the
positional list — as parsing `["-a","-b","-c"]`, and both return no
error. -/
theorem C2_grouping_equivalence (da db dc : Bool) :
    Flags.Parse (c2Flags da db dc ["-abc"]) defaultOpts [] =
      Flags.Parse (c2Flags da db dc ["-a", "-b", "-c"]) defaultOpts [] ∧
    (Flags.Parse (c2Flags da db dc ["-abc"]) defaultOpts []).2 = none :=
  ⟨rfl, rfl⟩

/-- C4: `["-s=a","-s=b"]` on a scalar String flag without
allow-multiple is `ErrFlagDouble` carrying the second occurrence's
token `"-s=b"`; with allow-multiple the parse succeeds and the final
value is `"b"`. -/
theorem C4_duplicate_rejection :
    (Flags.Parse c4Flags defaultOpts []).2 = some (.double "-s=b") ∧
    (Flags.Parse c4Flags allowMultipleOpts []).2 = none ∧
    ((Flags.Parse c4Flags allowMultipleOpts []).1.flagAt 0).val = .vStr "b" := by
  decide

/-- C5 counterexample: the String flag `s` requires a value and is
immediately followed by the flag-like token `-b`, yet `Parse` returns
no error at all — the claimed missing-argument error is not raised.
The flag is silently marked set with its value untouched. -/
theorem C5_counterexample :
    (Flags.Parse (c5Flags "" ["-s", "-b"]) defaultOpts []).2 = none ∧
    ((Flags.Parse (c5Flags "" ["-s", "-b"]) defaultOpts []).1.flagAt 0).set = true ∧
    ((Flags.Parse (c5Flags "" ["-s", "-b"]) defaultOpts []).1.flagAt 0).val = .vStr "" := by
  decide

/-- C5 (amended): a value-requiring flag raises needs-an-argument only
as the final token; when it is followed by a flag-like token the value
is silently absent: no error, the flag is marked set and keeps its
current value, and the following flag is processed normally. -/
theorem C5_amended (d : String) :
    (Flags.Parse (c5Flags d ["-s"]) defaultOpts []).2 = some (.needsArg "-s") ∧
    ((Flags.Parse (c5Flags d ["-s"]) defaultOpts []).1.flagAt 0).val = .vStr d ∧
    ((Flags.Parse (c5Flags d ["-s"]) defaultOpts []).1.flagAt 0).set = false ∧
    (Flags.Parse (c5Flags d ["-s", "-b"]) defaultOpts []).2 = none ∧
    (Flags.Parse (c5Flags d ["-s", "-b"]) defaultOpts []).1.flagAt 0 =
      ⟨["s"], false, .vStr d, true, false⟩ ∧
    ((Flags.Parse (c5Flags d ["-s", "-b"]) defaultOpts []).1.flagAt 1).val = .vBool true ∧
    (Flags.Parse (c5Flags d ["-s", "-b"]) defaultOpts []).1.args = [] :=
  ⟨rfl, rfl, rfl, rfl, rfl, rfl, rfl⟩

/-- C9: on a Bool flag `b`, the token `-b=X` is consumed without error
for any string `X` and sets the flag to true — the `=value` suffix is
ignored, never parsed and never rejected. -/
theorem C9_bool_eq_ignored (x : String) :
    (Flags.Parse (c9Flags x) defaultOpts []).2 = none ∧
    ((Flags.Parse (c9Flags x) defaultOpts []).1.flagAt 0).val = .vBool true ∧
    ((Flags.Parse (c9Flags x) defaultOpts []).1.flagAt 0).set = true ∧
    (Flags.Parse (c9Flags x) defaultOpts []).1.args = [] :=
  ⟨rfl, rfl, rfl, rfl⟩

/-- C10: `Parse` always registers the hidden String flags
`cpuprofile`/`cpu-profile` and `memprofile`/`mem-profile`:
with no caller-registered flags, `-cpuprofile=FILE` and
`-memprofile FILE` are consumed with their values (for any `FILE`),
produce no unknown-flag error, and do not appear among the
positionals. -/
theorem C10_profile_flags (file : String) :
    (Flags.Parse (c10Flags file) defaultOpts []).2 = none ∧
    (Flags.Parse (c10Flags file) defaultOpts []).1.args = ["pos"] ∧
    ((Flags.Parse (c10Flags file) defaultOpts []).1.flagAt 0).val = .vStr file ∧
    ((Flags.Parse (c10Flags file) defaultOpts []).1.flagAt 0).set = true ∧
    ((Flags.Parse (c10Flags file) defaultOpts []).1.flagAt 1).val = .vStr "f2" ∧
    ((Flags.Parse (c10Flags file) defaultOpts []).1.flagAt 1).set = true :=
  ⟨rfl, rfl, rfl, rfl, rfl, rfl⟩

/-! ## Helper lemmas -/

theorem runArgs_nil (aU aM : Bool) (fl : List flagValue) (p : List String) :
    runArgs aU aM fl [] p = .ok fl p := rfl

set_option maxHeartbeats 1000000 in
theorem runArgs_cons_pos (aU aM : Bool) (fl : List flagValue) (a : String)
    (rest p : List String) (ha : a = "" ∨ a = "-" ∨ ¬headDash a = true) :
    runArgs aU aM fl (a :: rest) p = runArgs aU aM fl rest (p ++ [a]) := by
  rw [runArgs, if_pos ha]

/-- A list of non-flag-like tokens is consumed verbatim into the
positional accumulator by the main loop, with no error and no flag
mutation. -/
theorem runArgs_nonflag (aU aM : Bool) (fl : List flagValue) (ts : List String)
    (h : ∀ t ∈ ts, nonFlagTok t) : ∀ p, runArgs aU aM fl ts p = .ok fl (p ++ ts) := by
  induction ts with
  | nil => intro p; rw [runArgs_nil, List.append_nil]
  | cons t rest ih =>
    intro p
    have ht : t = "" ∨ t = "-" ∨ ¬headDash t = true := by
      rcases h t (by simp) with h1 | h1 | h1
      exacts [Or.inl h1, Or.inr (Or.inl h1), Or.inr (Or.inr (by simp [h1]))]
    rw [runArgs_cons_pos aU aM fl t rest p ht,
      ih (fun t' ht' => h t' (by simp [ht'])) (p ++ [t])]
    simp

theorem headDash_false_hasPfx (t : String) (h : headDash t = false) :
    hasPfx ['-'] t.data = false := by
  rcases t with ⟨d⟩
  cases d with
  | nil => rfl
  | cons c cs =>
    by_cases hc : c = '-'
    · subst hc; simp [headDash] at h
    · simp only [hasPfx]
      simp [beq_iff_eq]
      exact fun e => hc e.symm

/-- A non-flag-like token passes through the rewrite loop unchanged. -/
theorem expandOne_nonflag (fl : List flagValue) (t : String) (h : nonFlagTok t) :
    expandOne fl t = [t] := by
  rcases h with h | h | h
  · subst h; rfl
  · subst h; rfl
  · have hp := headDash_false_hasPfx t h
    unfold expandOne
    rw [if_pos (Or.inl (by simp [hp]))]

theorem expandArgs_nonflag (fl : List flagValue) (ts : List String)
    (h : ∀ t ∈ ts, nonFlagTok t) : expandArgs fl ts = ts := by
  induction ts with
  | nil => rfl
  | cons t rest ih =>
    rw [expandArgs, expandOne_nonflag fl t (h t (by simp)),
      ih (fun t' ht' => h t' (by simp [ht']))]
    rfl

/-- `setFromEnv` marks the flag cell set on every error-free path. -/
theorem setFromEnv_sets (fg : flagValue) (v : String)
    (h : (setFromEnvF fg v).2 = false) : (setFromEnvF fg v).1.set = true := by
  rcases fg with ⟨ns, o, val, s, e⟩
  cases val with
  | vBool b => rfl
  | vStr s' => rfl
  | vInt n => revert h; simp only [setFromEnvF]; split <;> simp
  | vInt64 n => revert h; simp only [setFromEnvF]; split <;> simp
  | vCounter n => revert h; simp only [setFromEnvF]; split <;> (try split) <;> simp
  | vStrList l => rfl
  | vIntList l => rfl

theorem hasPfx_self (l : List Char) : hasPfx l l = true := by
  induction l with
  | nil => rfl
  | cons c cs ih => simp [hasPfx, ih]

/-- An exact match in the `ShiftCommand` loop returns the candidate
immediately, whatever was already accumulated. -/
theorem resolveCmd_exact (cmds : List String) (cmd : String) (found : List String)
    (h : cmd ∈ cmds) : resolveCmd cmd cmds found = .ok cmd := by
  induction cmds generalizing found with
  | nil => cases h
  | cons c rest ih =>
    by_cases hc : c = cmd
    · simp [resolveCmd, hc]
    · rcases List.mem_cons.mp h with h1 | h1
      · exact absurd h1.symm hc
      · conv_lhs => rw [resolveCmd]
        rw [if_neg hc]
        by_cases hp : hasPfx cmd.data c.data = true
        · rw [if_pos hp]; exact ih _ h1
        · rw [if_neg hp]; exact ih _ h1

/-- Without an exact match, the `ShiftCommand` loop accumulates exactly
the alias-resolved prefix matches. -/
theorem resolveCmd_filter (cmd : String) (cmds : List String)
    (h : cmd ∉ cmds) : ∀ found : List String,
    resolveCmd cmd cmds found =
      resolveCmd cmd []
        (found ++ (cmds.filter (fun c => hasPfx cmd.data c.data)).map aliasTarget) := by
  induction cmds with
  | nil => intro found; simp
  | cons c rest ih =>
    intro found
    have hc : ¬(c = cmd) := fun e => h (by simp [e])
    have h2 : cmd ∉ rest := fun m => h (List.mem_cons_of_mem _ m)
    conv_lhs => rw [resolveCmd]
    rw [if_neg hc]
    by_cases hp : hasPfx cmd.data c.data = true
    · rw [if_pos hp, ih h2]
      congr 1
      simp [List.filter_cons, hp, List.append_assoc]
    · rw [if_neg hp, ih h2]
      congr 1
      simp [List.filter_cons, hp]

/-! ## Remaining claim theorems -/

/-- C6: `setFromEnv` leaves `Set() == true` on every error-free path
(for every flag kind); and in a parse where the String flag `flag` is
first bound from the environment (`P_FLAG`, any value) and then appears
on the command line, the environment pass marks it set-from-env, no
duplicate-flag error is raised, and the command-line value `"cli"`
replaces the environment value (clearing the env mark). -/
theorem C6_env_precedence :
    (∀ (fg : flagValue) (v : String),
      (setFromEnvF fg v).2 = false → (setFromEnvF fg v).1.set = true) ∧
    ∀ ev : String,
      (fromEnvF c6Flags.flags "P" [("P_FLAG", ev)]).1.getD 0 dfltFlag =
        ⟨["flag"], false, .vStr ev, true, true⟩ ∧
      (fromEnvF c6Flags.flags "P" [("P_FLAG", ev)]).2 = none ∧
      (Flags.Parse c6Flags c6Opts [("P_FLAG", ev)]).2 = none ∧
      (Flags.Parse c6Flags c6Opts [("P_FLAG", ev)]).1.flagAt 0 =
        ⟨["flag"], false, .vStr "cli", true, false⟩ :=
  ⟨setFromEnv_sets, fun _ => ⟨rfl, rfl, rfl, rfl⟩⟩

/-- C6 witness: the general part of `C6_env_precedence` applied to a
concrete String flag and environment value. -/
theorem C6_env_precedence_witness :
    (setFromEnvF ⟨["flag"], false, .vStr "", false, false⟩ "x").2 = false ∧
    (setFromEnvF ⟨["flag"], false, .vStr "", false, false⟩ "x").1.set = true :=
  ⟨by decide, C6_env_precedence.1 ⟨["flag"], false, .vStr "", false, false⟩ "x" (by decide)⟩

/-- C7: with known commands `["help","heee"]`, candidate `"he"` is
ambiguous (listing both) and `"hel"` resolves to `"help"`; in general
an exact match wins immediately, zero prefix matches yield
unknown-command, exactly one prefix match yields that (alias-resolved)
command, and an empty argument list yields no-command-given. -/
theorem C7_shift_command :
    (Flags.ShiftCommand (NewFlags ["prog", "he"]) ["help", "heee"]).1 =
      .error (.ambiguous "he" ["help", "heee"]) ∧
    (Flags.ShiftCommand (NewFlags ["prog", "hel"]) ["help", "heee"]).1 = .ok "help" ∧
    (∀ (cmds : List String) (cmd : String) (found : List String),
      cmd ∈ cmds → resolveCmd cmd cmds found = .ok cmd) ∧
    (∀ (cmds : List String) (cmd : String),
      (∀ c ∈ cmds, hasPfx cmd.data c.data = false) →
      resolveCmd cmd cmds [] = .error (.unknown cmd)) ∧
    (∀ (cmds : List String) (cmd c : String),
      cmd ∉ cmds →
      (cmds.filter (fun c0 => hasPfx cmd.data c0.data)).map aliasTarget = [c] →
      resolveCmd cmd cmds [] = .ok c) ∧
    (∀ (pr : String) (fl : List flagValue) (o : Bool) (cmds : List String),
      (Flags.ShiftCommand ⟨pr, [], fl, o⟩ cmds).1 = .error .noneGiven) := by
  refine ⟨by decide, by decide, resolveCmd_exact, ?_, ?_, fun pr fl o cmds => rfl⟩
  · intro cmds cmd h
    have hni : cmd ∉ cmds := fun hm => by
      have hs := h cmd hm
      rw [hasPfx_self] at hs
      exact absurd hs (by decide)
    rw [resolveCmd_filter cmd cmds hni []]
    rw [List.filter_eq_nil_iff.mpr (fun c hc => by simp [h c hc])]
    rfl
  · intro cmds cmd c hni hone
    rw [resolveCmd_filter cmd cmds hni [], hone]
    rfl

/-- C7 witness: the exact-match clause of `C7_shift_command` applied to
a concrete command list. -/
theorem C7_shift_command_witness :
    resolveCmd "see" ["search", "see"] [] = .ok "see" :=
  C7_shift_command.2.2.1 ["search", "see"] "see" [] (by decide)

/-- C8 counterexample: with an IntCounter flag `v` and argument vector
`["--","-v"]`, the first `Parse` succeeds with positionals `["-v"]`,
but a second `Parse` on that state — although it returns no error —
consumes `-v` as a flag and leaves a different (empty) positional
list, contradicting the claimed idempotence. -/
theorem C8_counterexample :
    (Flags.Parse c8Flags defaultOpts []).2 = none ∧
    (Flags.Parse c8Flags defaultOpts []).1.args = ["-v"] ∧
    (Flags.Parse (Flags.Parse c8Flags defaultOpts []).1 defaultOpts []).2 = none ∧
    (Flags.Parse (Flags.Parse c8Flags defaultOpts []).1 defaultOpts []).1.args = [] := by
  decide

/-- C8 (amended): a second `Parse` is a no-op — no error and an
identical positional list — whenever the state being re-parsed has only
non-flag-like positionals (empty, `"-"`, or not starting with `-`);
the counterexample shows the restriction is necessary when a flag-like
token survives as a positional (e.g. after `--`). -/
theorem C8_amended (f : Flags) (h : ∀ t ∈ f.args, nonFlagTok t) :
    (Flags.Parse f defaultOpts []).2 = none ∧
    (Flags.Parse f defaultOpts []).1.args = f.args := by
  have hex : expandArgs (regProf f).flags f.args = f.args :=
    expandArgs_nonflag _ _ h
  have hrun : runArgs false false (regProf f).flags f.args [] =
      .ok (regProf f).flags f.args := by
    simpa using runArgs_nonflag false false (regProf f).flags f.args h []
  simp only [Flags.Parse, defaultOpts, parseMain]
  rw [show (regProf f).args = f.args from rfl, hex, hrun]
  norm_num

/-- C8 witness: the amended theorem applied to an all-positional
state. -/
theorem C8_amended_witness :
    (Flags.Parse ⟨"prog", ["xx", "yy"], [], false⟩ defaultOpts []).2 = none ∧
    (Flags.Parse ⟨"prog", ["xx", "yy"], [], false⟩ defaultOpts []).1.args = ["xx", "yy"] :=
  C8_amended ⟨"prog", ["xx", "yy"], [], false⟩ (by decide)

/-- Under the fused-short-value conditions — `-w8` matches no
registered flag exactly, the single letter `w` does and accepts a value
— the rewrite loop splits `-w8` into `-w` followed by the bare value
`8`. -/
theorem expandOne_w8 (fl : List flagValue) (i : Nat)
    (h1 : matchList fl "-w8" = none)
    (h2 : matchList fl "w" = some i)
    (h3 : acceptsValue (fl.getD i dfltFlag).val = true) :
    expandOne fl "-w8" = ["-w", "8"] := by
  rw [expandOne, if_neg (by decide), h1]
  rw [if_neg (by simp)]
  rw [if_neg (by decide)]
  show (match findShortArg fl ['w', '8'] with
        | none => ["-w8"]
        | some sa => rebuildShort ['w', '8'] sa) = ["-w", "8"]
  rw [findShortArg, show String.mk ['w'] = "w" from rfl, h2]
  simp only [h3, if_true]
  rfl

/-- A token that matches a registered flag exactly passes the rewrite
loop unchanged. -/
theorem expandOne_w (fl : List flagValue) (i : Nat)
    (h2 : matchList fl "w" = some i) :
    expandOne fl "-w" = ["-w"] := by
  rw [expandOne, if_neg (by decide)]
  rw [show matchList fl "-w" = matchList fl "w" from rfl, h2]
  rw [if_pos (by simp)]

theorem expandOne_8 (fl : List flagValue) : expandOne fl "8" = ["8"] := by
  rw [expandOne, if_pos (by decide)]

/-- Fused-short-value equivalence for an arbitrary flag registration:
if `-w8` has no exact match and `w` matches a value-accepting flag,
parsing `["-w8"]` and `["-w","8"]` give identical results. -/
theorem fused_general (f : Flags) (i : Nat)
    (h1 : matchList (regProf f).flags "-w8" = none)
    (h2 : matchList (regProf f).flags "w" = some i)
    (h3 : acceptsValue ((regProf f).flags.getD i dfltFlag).val = true) :
    Flags.Parse { f with args := ["-w8"] } defaultOpts [] =
      Flags.Parse { f with args := ["-w", "8"] } defaultOpts [] := by
  have hexp1 : expandArgs (regProf f).flags ["-w8"] = ["-w", "8"] := by
    rw [expandArgs, expandArgs, expandOne_w8 (regProf f).flags i h1 h2 h3]
    rfl
  have hexp2 : expandArgs (regProf f).flags ["-w", "8"] = ["-w", "8"] := by
    rw [expandArgs, expandArgs, expandArgs, expandOne_w (regProf f).flags i h2,
      expandOne_8 (regProf f).flags]
    rfl
  show parseMain { f with args := ["-w8"] } defaultOpts none =
    parseMain { f with args := ["-w", "8"] } defaultOpts none
  simp only [parseMain]
  rw [show (regProf { f with args := (["-w8"] : List String) }).flags = (regProf f).flags from rfl]
  rw [show (regProf { f with args := (["-w", "8"] : List String) }).flags = (regProf f).flags from rfl]
  rw [show (regProf { f with args := (["-w8"] : List String) }).args = (["-w8"] : List String) from rfl]
  rw [show (regProf { f with args := (["-w", "8"] : List String) }).args = (["-w", "8"] : List String) from rfl]
  rw [hexp1, hexp2]
  rw [show (regProf { f with args := (["-w8"] : List String) }).program = (regProf f).program from rfl]
  rw [show (regProf { f with args := (["-w", "8"] : List String) }).program = (regProf f).program from rfl]
  rw [show (regProf { f with args := (["-w8"] : List String) }).optional = (regProf f).optional from rfl]
  rw [show (regProf { f with args := (["-w", "8"] : List String) }).optional = (regProf f).optional from rfl]

/-- C3: for any registration in which the token `-w8` matches no flag
exactly and the single-letter flag `w` matches a value-accepting flag,
parsing `["-w8"]` yields exactly the same result — flag cells,
positionals and error — as parsing `["-w","8"]`; moreover for an
int-valued `w` (any default) both succeed binding 8 with the flag set
and no positionals. -/
theorem C3_fused_short_value :
    (∀ (f : Flags) (i : Nat),
      matchList (regProf f).flags "-w8" = none →
      matchList (regProf f).flags "w" = some i →
      acceptsValue ((regProf f).flags.getD i dfltFlag).val = true →
      Flags.Parse { f with args := ["-w8"] } defaultOpts [] =
        Flags.Parse { f with args := ["-w", "8"] } defaultOpts []) ∧
    ∀ d : Int,
      Flags.Parse (c3Flags d ["-w8"]) defaultOpts [] =
        Flags.Parse (c3Flags d ["-w", "8"]) defaultOpts [] ∧
      (Flags.Parse (c3Flags d ["-w8"]) defaultOpts []).2 = none ∧
      ((Flags.Parse (c3Flags d ["-w8"]) defaultOpts []).1.flagAt 0).val = .vInt 8 ∧
      ((Flags.Parse (c3Flags d ["-w8"]) defaultOpts []).1.flagAt 0).set = true ∧
      (Flags.Parse (c3Flags d ["-w8"]) defaultOpts []).1.args = [] :=
  ⟨fused_general, fun _ => ⟨rfl, rfl, rfl, rfl, rfl⟩⟩

/-- C3 witness: the general clause of `C3_fused_short_value` applied to
a single int flag `w`. -/
theorem C3_fused_short_value_witness :
    Flags.Parse { Flags.intFlag (NewFlags ["prog"]) 0 "w" [] with args := ["-w8"] }
        defaultOpts [] =
      Flags.Parse { Flags.intFlag (NewFlags ["prog"]) 0 "w" [] with args := ["-w", "8"] }
        defaultOpts [] :=
  C3_fused_short_value.1 (Flags.intFlag (NewFlags ["prog"]) 0 "w" []) 0
    (by decide) (by decide) (by decide)
